import Mathlib

/-!
Shallow embedding of the `esb` crate's framed, zero-copy packet channel
(src/buffer.rs, src/app.rs, src/payload.rs).

Machine bytes (`u8`) are modelled as `Nat` values below 256; byte buffers
(`[u8]` slices backing the ring grants) are `List Nat`.  The `as u8` cast
is an explicit `% 256`.  Code that lives in crates outside this repository
(the `bbq2` framed ring queue) or in repository files not present here
(the `Error` enum of lib.rs, the `EsbHeader` re-export, irq.rs) is modelled
from the specification and marked as such in its doc comment.
-/

/-- Modelled from the spec: the public error enum of lib.rs (not present in
src/); variant names follow the error taxonomy and the variants named by
app.rs and buffer.rs. -/
inductive Error where
  | AlreadySplit
  | MaximumPacketExceeded
  | GrantInProgress
  | OutgoingQueueFull
  | InternalError
  | InvalidParameters
  deriving DecidableEq

/-- Modelled from the spec: the error type of the external bbq2 framed ring
queue, as named by the commented-out match arms of `grant_packet`. -/
inductive BbqError where
  | GrantInProgress
  | InsufficientSize
  | Empty
  deriving DecidableEq

/-- The packet header of payload.rs: four bytes
`[rssi, pipe, length, pid_no_ack]`. -/
structure PayloadHeader where
  rssi : Nat
  pipe : Nat
  length : Nat
  pid_no_ack : Nat
  deriving DecidableEq

def PayloadHeader.rssi_idx : Nat := 0

def PayloadHeader.pipe_idx : Nat := 1

def PayloadHeader.length_idx : Nat := 2

def PayloadHeader.pid_no_ack_idx : Nat := 3

/-- Size of the encoded header (`size_of::<PhBytes>()` with
`PhBytes = [u8; 4]`). -/
def PayloadHeader.header_size : Nat := 4

/-- The `isize` offset added to the grant base by `dma_pointer`; the source
fixes it at 2 (the DMA part of the frame starts at the length byte). -/
def PayloadHeader.dma_payload_offset : Int := 2

/-- Encoding of `PayloadHeader::to_bytes`: the four fields in order. -/
def PayloadHeader.to_bytes (h : PayloadHeader) : List Nat :=
  [h.rssi, h.pipe, h.length, h.pid_no_ack]

/-- Decoding of `PayloadHeader::from_bytes`, reading the four fixed indices. -/
def PayloadHeader.from_bytes (b : List Nat) : PayloadHeader :=
  { rssi := b.getD PayloadHeader.rssi_idx 0
    pipe := b.getD PayloadHeader.pipe_idx 0
    length := b.getD PayloadHeader.length_idx 0
    pid_no_ack := b.getD PayloadHeader.pid_no_ack_idx 0 }

/-- Modelled from the spec: `EsbHeader`, imported by app.rs from payload.rs
but absent from src/, carries the same four header fields; its
`payload_len()` returns the declared length as a `usize` and its
`header_size()` is the same 4. -/
def PayloadHeader.payload_len (h : PayloadHeader) : Nat := h.length

/-- Writing `src` over the first `src.length` bytes of `dst`
(`dst[..src.len()].copy_from_slice(&src)`; defined when
`src.length ≤ dst.length`, otherwise the Rust code panics). -/
def writeSlice (dst src : List Nat) : List Nat :=
  src ++ dst.drop src.length

/-- A write payload grant (`PayloadW`): the bytes of the reserved region. -/
structure PayloadW where
  grant : List Nat
  deriving DecidableEq

/-- `PayloadW::new_from_app`: copies the encoded header into the first 4
bytes of the raw grant. -/
def PayloadW.new_from_app (raw_grant : List Nat) (header : PayloadHeader) :
    PayloadW :=
  ⟨writeSlice raw_grant header.to_bytes⟩

/-- `PayloadW::new_from_radio`: wraps the raw grant unchanged. -/
def PayloadW.new_from_radio (raw_grant : List Nat) : PayloadW :=
  ⟨raw_grant⟩

/-- `PayloadW::update_header`: rewrites the first 4 bytes with the encoded
header. -/
def PayloadW.update_header (p : PayloadW) (header : PayloadHeader) : PayloadW :=
  ⟨writeSlice p.grant header.to_bytes⟩

/-- `PayloadW::pipe`: byte 1 of the grant. -/
def PayloadW.pipe (p : PayloadW) : Nat :=
  p.grant.getD PayloadHeader.pipe_idx 0

/-- `PayloadW::payload_len`: byte 2 of the grant, as a `usize`. -/
def PayloadW.payload_len (p : PayloadW) : Nat :=
  p.grant.getD PayloadHeader.length_idx 0

/-- Modelled from the spec: `FrameGrantW::commit(len)` of the external ring
queue makes the first `len` bytes of the reservation visible to the consumer
as one frame (clamped to the reservation size). -/
def FrameGrantW.commit (g : List Nat) (len : Nat) : List Nat :=
  g.take len

/-- `PayloadW::commit_all`: commits `payload_len() + header_size()` bytes,
using the length currently recorded in the header. -/
def PayloadW.commit_all (p : PayloadW) : List Nat :=
  FrameGrantW.commit p.grant (p.payload_len + PayloadHeader.header_size)

/-- `PayloadW::commit(used)`: clamps `used` to the recorded length, stores
the clamp back into the header length byte (`as u8` is `% 256`), then
commits that many body bytes plus the header. -/
def PayloadW.commit (p : PayloadW) (used : Nat) : List Nat :=
  let max_payload_len := p.payload_len
  let payload_len := min used max_payload_len
  let g := p.grant.set PayloadHeader.length_idx (payload_len % 256)
  FrameGrantW.commit g (payload_len + PayloadHeader.header_size)

/-- `PayloadW::dma_pointer`: the grant base address plus
`dma_payload_offset`. -/
def PayloadW.dma_pointer (_p : PayloadW) (base : Int) : Int :=
  base + PayloadHeader.dma_payload_offset

/-- A read payload grant (`PayloadR`): the bytes of one committed frame. -/
structure PayloadR where
  grant : List Nat
  deriving DecidableEq

/-- `PayloadR::new`. -/
def PayloadR.new (raw_grant : List Nat) : PayloadR :=
  ⟨raw_grant⟩

/-- `PayloadR::get_header`: decodes the first 4 bytes of the frame. -/
def PayloadR.get_header (p : PayloadR) : PayloadHeader :=
  PayloadHeader.from_bytes (p.grant.take PayloadHeader.header_size)

/-- `PayloadR::pipe`: byte 1 of the frame. -/
def PayloadR.pipe (p : PayloadR) : Nat :=
  p.grant.getD PayloadHeader.pipe_idx 0

/-- `PayloadR::dma_pointer`: the grant base address plus
`dma_payload_offset`. -/
def PayloadR.dma_pointer (_p : PayloadR) (base : Int) : Int :=
  base + PayloadHeader.dma_payload_offset

/-- The `Deref` body view of a grant: everything after the 4-byte header. -/
def PayloadR.body (p : PayloadR) : List Nat :=
  p.grant.drop PayloadHeader.header_size

/-- Well-formedness of a write grant as produced by the app or radio paths:
the declared length fits in the reservation and is a byte value.  Grants
built by `new_from_app` from a reservation of `payload_len + header_size`
bytes satisfy this by construction. -/
def PayloadW.wf (p : PayloadW) : Prop :=
  p.grant.getD PayloadHeader.length_idx 0 + PayloadHeader.header_size ≤
      p.grant.length ∧
  p.grant.getD PayloadHeader.length_idx 0 < 256

instance (p : PayloadW) : Decidable p.wf := by
  unfold PayloadW.wf
  infer_instance

/-- Modelled from the spec: one direction of the external bbq2 framed ring
queue (section 4.2 of the spec).  `frames` are the committed,
not-yet-released frames in FIFO order; `write_grant` records the size of
the outstanding write reservation, if any. -/
structure Channel where
  capacity : Nat
  frames : List (List Nat)
  write_grant : Option Nat
  deriving DecidableEq

/-- A channel with no frames and no outstanding grant. -/
def Channel.empty (cap : Nat) : Channel :=
  { capacity := cap, frames := [], write_grant := none }

/-- Modelled from the spec: per-frame bookkeeping overhead of the framed
queue (a small length prefix per frame). -/
def frameOverhead : Nat := 2

/-- Bytes of the ring currently unavailable: committed frames plus the
outstanding reservation, each with its bookkeeping overhead. -/
def Channel.used_space (c : Channel) : Nat :=
  (c.frames.map (fun f => f.length + frameOverhead)).sum +
    (match c.write_grant with
     | some n => n + frameOverhead
     | none => 0)

/-- Modelled from the spec: `FramedProducer::grant(n)` fails with
`GrantInProgress` when a write grant is outstanding, with
`InsufficientSize` when `n` plus overhead does not fit in the free space,
and otherwise reserves `n` bytes (fresh storage, not yet visible). -/
def Channel.grant (c : Channel) (n : Nat) :
    Except BbqError (List Nat × Channel) :=
  if c.write_grant.isSome then .error .GrantInProgress
  else if c.capacity < c.used_space + n + frameOverhead then
    .error .InsufficientSize
  else .ok (List.replicate n 0, { c with write_grant := some n })

/-- The committed frame enters the queue and the reservation is closed. -/
def Channel.push_frame (c : Channel) (f : List Nat) : Channel :=
  { c with frames := c.frames ++ [f], write_grant := none }

/-- Modelled from the spec: `FramedConsumer::read` takes `&mut self` but is
a peek — it returns the oldest committed, not-yet-released frame and leaves
the queue unchanged; dropping the returned grant does not release it. -/
def Channel.read (c : Channel) : Except BbqError (List Nat) × Channel :=
  match c.frames.head? with
  | some f => (.ok f, c)
  | none => (.error .Empty, c)

/-- Modelled from the spec: `FrameGrantR::release` frees the oldest frame. -/
def Channel.release (c : Channel) : Channel :=
  { c with frames := c.frames.tail }

/-- Modelled from the spec: the protocol configuration of lib.rs (only the
field used by app.rs and buffer.rs). -/
structure Config where
  maximum_payload_size : Nat
  deriving DecidableEq

/-- The application-side interface of app.rs. -/
structure EsbApp where
  prod_to_radio : Channel
  cons_from_radio : Channel
  maximum_payload : Nat
  deriving DecidableEq

/-- The sending half produced by `EsbApp::split`. -/
structure EsbAppSender where
  prod_to_radio : Channel
  maximum_payload : Nat
  deriving DecidableEq

/-- The receiving half produced by `EsbApp::split`. -/
structure EsbAppReceiver where
  cons_from_radio : Channel
  maximum_payload : Nat
  deriving DecidableEq

/-- `EsbApp::split`. -/
def EsbApp.split (s : EsbApp) : EsbAppSender × EsbAppReceiver :=
  (⟨s.prod_to_radio, s.maximum_payload⟩, ⟨s.cons_from_radio, s.maximum_payload⟩)

/-- `EsbApp::grant_packet`: rejects oversize headers, then reserves
`payload_len + header_size` bytes; every queue error is collapsed to
`InternalError` (the match arm in the source is a wildcard, the arms naming
`GrantInProgress` and `OutgoingQueueFull` being commented out).  Returns
the result together with the (possibly updated) interface state. -/
def EsbApp.grant_packet (s : EsbApp) (header : PayloadHeader) :
    Except Error PayloadW × EsbApp :=
  if header.length > s.maximum_payload then (.error .MaximumPacketExceeded, s)
  else
    match s.prod_to_radio.grant
        (header.payload_len + PayloadHeader.header_size) with
    | .error _ => (.error .InternalError, s)
    | .ok (g, ch) =>
        (.ok (PayloadW.new_from_app g header), { s with prod_to_radio := ch })

/-- `EsbAppSender::grant_packet`: same body as `EsbApp::grant_packet`. -/
def EsbAppSender.grant_packet (s : EsbAppSender) (header : PayloadHeader) :
    Except Error PayloadW × EsbAppSender :=
  if header.length > s.maximum_payload then (.error .MaximumPacketExceeded, s)
  else
    match s.prod_to_radio.grant
        (header.payload_len + PayloadHeader.header_size) with
    | .error _ => (.error .InternalError, s)
    | .ok (g, ch) =>
        (.ok (PayloadW.new_from_app g header), { s with prod_to_radio := ch })

/-- `EsbAppSender::wait_grant_packet`: the same oversize check, then a
suspending reservation.  The suspension is modelled from the spec: `granted`
stands for the raw grant the queue eventually hands back when the await
resumes, so the function is total in it. -/
def EsbAppSender.wait_grant_packet (s : EsbAppSender) (header : PayloadHeader)
    (granted : List Nat) : Except Error PayloadW :=
  if header.length > s.maximum_payload then .error .MaximumPacketExceeded
  else .ok (PayloadW.new_from_app granted header)

/-- `EsbAppReceiver::msg_ready`: calls `read` on the consumer and reports
whether it succeeded; the grant is dropped, which does not release it. -/
def EsbAppReceiver.msg_ready (r : EsbAppReceiver) : Bool × EsbAppReceiver :=
  match r.cons_from_radio.read with
  | (.ok _, ch) => (true, { r with cons_from_radio := ch })
  | (.error _, ch) => (false, { r with cons_from_radio := ch })

/-- `EsbAppReceiver::read_packet`: wraps a successful `read` in a
`PayloadR`. -/
def EsbAppReceiver.read_packet (r : EsbAppReceiver) :
    Option PayloadR × EsbAppReceiver :=
  match r.cons_from_radio.read with
  | (.ok f, ch) => (some (PayloadR.new f), { r with cons_from_radio := ch })
  | (.error _, ch) => (none, { r with cons_from_radio := ch })

/-- `EsbApp::read_packet` (same body as the receiver's). -/
def EsbApp.read_packet (s : EsbApp) : Option PayloadR × EsbApp :=
  match s.cons_from_radio.read with
  | (.ok f, ch) => (some (PayloadR.new f), { s with cons_from_radio := ch })
  | (.error _, ch) => (none, { s with cons_from_radio := ch })

/-- `EsbApp::msg_ready` (same body as the receiver's). -/
def EsbApp.msg_ready (s : EsbApp) : Bool × EsbApp :=
  match s.cons_from_radio.read with
  | (.ok _, ch) => (true, { s with cons_from_radio := ch })
  | (.error _, ch) => (false, { s with cons_from_radio := ch })

/-- The backing storage of buffer.rs: two framed ring queues and the
cross-context timer flag. -/
structure EsbBufferState where
  app_to_radio_buf : Channel
  radio_to_app_buf : Channel
  timer_flag : Bool
  deriving DecidableEq

/-- The interrupt-side handles built by `try_split` (the `EsbIrq` fields
that live in src/: the mirror-image producer/consumer pair; the peripheral
fields of irq.rs are not modelled). -/
structure EsbIrqState where
  prod_to_app : Channel
  cons_from_app : Channel
  deriving DecidableEq

/-- `EsbBuffer::try_split` as written in buffer.rs: obtains the two
producer/consumer pairs, clears the timer flag, builds the app and irq
handle sets and initializes the radio and timer.  The body contains no
failure path — its only exit is `Ok((app, irq, irq_timer))`. -/
def EsbBuffer.try_split (b : EsbBufferState) (config : Config) :
    Except Error (EsbApp × EsbIrqState × EsbBufferState) :=
  .ok
    ({ prod_to_radio := b.app_to_radio_buf
       cons_from_radio := b.radio_to_app_buf
       maximum_payload := config.maximum_payload_size },
     { prod_to_app := b.radio_to_app_buf, cons_from_app := b.app_to_radio_buf },
     { b with timer_flag := false })

/-- One producer- or consumer-side step on a channel: reserving a write
grant, committing a write payload (via `PayloadW::commit` or
`PayloadW::commit_all`), or releasing the oldest frame. -/
inductive Op where
  | reserve (n : Nat)
  | commitUsed (p : PayloadW) (used : Nat)
  | commitAll (p : PayloadW)
  | release

/-- A commit step must commit a well-formed write payload (as all payloads
built over a reservation of `payload_len + header_size` bytes are). -/
def Op.valid : Op → Prop
  | .commitUsed p _ => p.wf
  | .commitAll p => p.wf
  | _ => True

instance : (op : Op) → Decidable op.valid
  | .reserve _ => .isTrue trivial
  | .commitUsed p _ => inferInstanceAs (Decidable p.wf)
  | .commitAll p => inferInstanceAs (Decidable p.wf)
  | .release => .isTrue trivial

/-- Whether a step makes a frame visible to the consumer. -/
def Op.isCommit : Op → Bool
  | .commitUsed _ _ => true
  | .commitAll _ => true
  | _ => false

/-- Effect of one step on the channel state. -/
def Channel.apply (c : Channel) : Op → Channel
  | .reserve n =>
      match c.grant n with
      | .ok (_, c2) => c2
      | .error _ => c
  | .commitUsed p used => c.push_frame (p.commit used)
  | .commitAll p => c.push_frame p.commit_all
  | .release => c.release

/-- Running a sequence of steps. -/
def Channel.runOps (c : Channel) (ops : List Op) : Channel :=
  ops.foldl Channel.apply c

/-- Internal consistency of a committed frame: its size is the 4 header
bytes plus the value of its header length byte. -/
def frameOk (f : List Nat) : Prop :=
  f.length = PayloadHeader.header_size + f.getD PayloadHeader.length_idx 0

instance (f : List Nat) : Decidable (frameOk f) := by
  unfold frameOk
  infer_instance

/-- Every committed, unread frame of the channel is internally consistent. -/
def Channel.inv (c : Channel) : Prop :=
  ∀ f ∈ c.frames, frameOk f

deriving instance DecidableEq for Except

/-- Discriminator for results (`Result::is_ok`). -/
def exOk {ε α : Type} : Except ε α → Bool
  | .ok _ => true
  | .error _ => false

/-- A concrete header used in examples: rssi 7, pipe 2, length 6, flags 0. -/
def hdrEx : PayloadHeader := ⟨7, 2, 6, 0⟩

/-- A concrete 10-byte raw reservation (length-6 payload plus header). -/
def rawEx : List Nat := List.replicate 10 0

/-- The write payload built over `rawEx` with `hdrEx`. -/
def pwEx : PayloadW := PayloadW.new_from_app rawEx hdrEx

/-- A minimal concrete write payload. -/
def pw0 : PayloadW := ⟨[0, 0, 0, 0]⟩

/-- The frame committed from `pwEx` with `used = 6`. -/
def f1ex : List Nat := pwEx.commit 6

/-- A second concrete committed frame (empty body). -/
def f2ex : List Nat := [5, 1, 0, 0]

/-- A receiver holding two committed frames. -/
def rcvEx : EsbAppReceiver := ⟨⟨64, [f1ex, f2ex], none⟩, 32⟩

/-- Steps reserving then committing one frame. -/
def opsEx : List Op := [Op.reserve 10, Op.commitUsed pwEx 6]

/-- The receiver state observed after running `opsEx` from an empty ring. -/
def rcvAfterEx : EsbAppReceiver := ⟨(Channel.empty 64).runOps opsEx, 32⟩

/-- App state with an outstanding 10-byte write reservation. -/
def c2busy : EsbApp := ⟨⟨64, [], some 10⟩, Channel.empty 64, 32⟩

/-- App state whose outbound ring is too small for any 10-byte frame. -/
def c2full : EsbApp := ⟨⟨4, [], none⟩, Channel.empty 64, 32⟩

/-- An in-range header of length 6. -/
def hdrC2 : PayloadHeader := ⟨0, 0, 6, 0⟩

/-- App and sender states configured with maximum payload 32. -/
def s7 : EsbApp := ⟨Channel.empty 64, Channel.empty 64, 32⟩

/-- Sender state configured with maximum payload 32. -/
def snd7 : EsbAppSender := ⟨Channel.empty 64, 32⟩

/-- An oversize header: declared length 40 against maximum 32. -/
def hdrBig : PayloadHeader := ⟨0, 1, 40, 0⟩

/-- An in-range header: declared length 6 against maximum 32. -/
def hdrOk : PayloadHeader := ⟨0, 1, 6, 0⟩

theorem getD_take_of_lt (l : List Nat) (m n : Nat) (h : n < m) :
    (l.take m).getD n 0 = l.getD n 0 := by
  induction l generalizing m n with
  | nil => simp
  | cons a t ih =>
    cases m with
    | zero => exact absurd h (Nat.not_lt_zero n)
    | succ m =>
      cases n with
      | zero => simp
      | succ n =>
        simp only [List.take_succ_cons, List.getD_cons_succ]
        exact ih m n (Nat.lt_of_succ_lt_succ h)

theorem getD_set_self (l : List Nat) (n v : Nat) (h : n < l.length) :
    (l.set n v).getD n 0 = v := by
  induction l generalizing n with
  | nil => simp at h
  | cons a t ih =>
    cases n with
    | zero => simp
    | succ n =>
      simp only [List.set_cons_succ, List.getD_cons_succ]
      exact ih n (Nat.lt_of_succ_lt_succ h)

theorem set_getD_self (l : List Nat) (n : Nat) :
    l.set n (l.getD n 0) = l := by
  induction l generalizing n with
  | nil => simp
  | cons a t ih =>
    cases n with
    | zero => simp
    | succ n =>
      simp only [List.set_cons_succ, List.getD_cons_succ]
      rw [ih n]

theorem commit_eq (p : PayloadW) (used : Nat) :
    p.commit used = (p.grant.set PayloadHeader.length_idx
      (min used p.payload_len % 256)).take
      (min used p.payload_len + PayloadHeader.header_size) := rfl

theorem commit_frameOk (p : PayloadW) (used : Nat) (h : p.wf) :
    frameOk (p.commit used) := by
  obtain ⟨hfit, hbyte⟩ := h
  unfold frameOk
  rw [commit_eq]
  unfold PayloadW.payload_len
  simp only [PayloadHeader.length_idx, PayloadHeader.header_size] at hfit hbyte ⊢
  have hm : min used (p.grant.getD 2 0) ≤ p.grant.getD 2 0 :=
    Nat.min_le_right _ _
  have hmod : min used (p.grant.getD 2 0) % 256 = min used (p.grant.getD 2 0) :=
    Nat.mod_eq_of_lt (lt_of_le_of_lt hm hbyte)
  rw [hmod]
  have h2 : 2 < p.grant.length := by omega
  have hset : (p.grant.set 2 (min used (p.grant.getD 2 0))).length =
      p.grant.length := List.length_set ..
  rw [List.length_take, hset,
    getD_take_of_lt _ _ _
      (Nat.lt_of_lt_of_le (by norm_num) (Nat.le_add_left 4 _)),
    getD_set_self p.grant 2 (min used (p.grant.getD 2 0)) h2,
    Nat.min_eq_left (le_trans (Nat.add_le_add_right hm 4) hfit)]
  omega

theorem commit_all_frameOk (p : PayloadW) (h : p.wf) :
    frameOk p.commit_all := by
  obtain ⟨hfit, _⟩ := h
  unfold frameOk PayloadW.commit_all FrameGrantW.commit PayloadW.payload_len
  simp only [PayloadHeader.length_idx, PayloadHeader.header_size] at hfit ⊢
  rw [List.length_take, getD_take_of_lt _ _ _ (by omega),
    Nat.min_eq_left hfit]
  omega

theorem apply_inv (c : Channel) (op : Op) (hc : c.inv) (hv : op.valid) :
    (c.apply op).inv := by
  cases op with
  | reserve n =>
    simp only [Channel.apply, Channel.grant]
    by_cases h1 : c.write_grant.isSome
    · simpa [h1] using hc
    · by_cases h2 : c.capacity < c.used_space + n + frameOverhead
      · simpa [h1, h2] using hc
      · simp only [h1, h2, Bool.false_eq_true, if_false, if_neg]
        intro f hf
        exact hc f hf
  | commitUsed p used =>
    intro f hf
    rcases List.mem_append.1 hf with hl | hr
    · exact hc f hl
    · rw [List.mem_singleton.1 hr]
      exact commit_frameOk p used hv
  | commitAll p =>
    intro f hf
    rcases List.mem_append.1 hf with hl | hr
    · exact hc f hl
    · rw [List.mem_singleton.1 hr]
      exact commit_all_frameOk p hv
  | release =>
    intro f hf
    exact hc f (List.mem_of_mem_tail hf)

theorem runOps_inv (ops : List Op) :
    ∀ c : Channel, c.inv → (∀ op ∈ ops, op.valid) →
      (c.runOps ops).inv := by
  induction ops with
  | nil =>
    intro c hc _
    exact hc
  | cons op t ih =>
    intro c hc hv
    simp only [Channel.runOps, List.foldl_cons]
    exact ih (c.apply op)
      (apply_inv c op hc (hv op (List.mem_cons_self op t)))
      (fun o ho => hv o (List.mem_cons_of_mem op ho))

theorem apply_frames_nil (c : Channel) (op : Op) (hc : c.frames = [])
    (h : op.isCommit = false) : (c.apply op).frames = [] := by
  cases op with
  | reserve n =>
    simp only [Channel.apply, Channel.grant]
    by_cases h1 : c.write_grant.isSome
    · simpa [h1] using hc
    · by_cases h2 : c.capacity < c.used_space + n + frameOverhead
      · simpa [h1, h2] using hc
      · simp only [h1, h2, Bool.false_eq_true, if_false, if_neg]
        exact hc
  | commitUsed p used => simp [Op.isCommit] at h
  | commitAll p => simp [Op.isCommit] at h
  | release => simp [Channel.apply, Channel.release, hc]

theorem runOps_frames_nil (ops : List Op) :
    ∀ c : Channel, c.frames = [] → (∀ op ∈ ops, op.isCommit = false) →
      (c.runOps ops).frames = [] := by
  induction ops with
  | nil =>
    intro c hc _
    exact hc
  | cons op t ih =>
    intro c hc hv
    simp only [Channel.runOps, List.foldl_cons]
    exact ih (c.apply op)
      (apply_frames_nil c op hc (hv op (List.mem_cons_self op t)))
      (fun o ho => hv o (List.mem_cons_of_mem op ho))

theorem head?_mem {α : Type} (l : List α) (a : α) (h : l.head? = some a) :
    a ∈ l := by
  cases l with
  | nil => simp at h
  | cons x t =>
    simp only [List.head?_cons, Option.some.injEq] at h
    rw [← h]
    exact List.mem_cons_self x t

theorem read_packet_frames (ch : Channel) (mp : Nat) :
    (EsbAppReceiver.read_packet ⟨ch, mp⟩).1 =
      ch.frames.head?.map PayloadR.new := by
  unfold EsbAppReceiver.read_packet Channel.read
  cases hh : ch.frames.head? <;> simp [hh]

/-- C1: the claim says the first `try_split` on a buffer returns `Ok` and
every later call returns `Err(AlreadySplit)`.  The body of `try_split` in
buffer.rs has no failure path at all — its only exit is `Ok`, so a second
call on the buffer state left by the first succeeds again and
`AlreadySplit` is never produced. -/
theorem c1_try_split_second_call_succeeds (b : EsbBufferState) (cfg : Config) :
    exOk (EsbBuffer.try_split b cfg) = true ∧
    exOk ((EsbBuffer.try_split b cfg).bind
      (fun r => EsbBuffer.try_split r.2.2 cfg)) = true := by
  exact ⟨rfl, rfl⟩

/-- C3 counterexample: the claim says `dma_pointer` is the grant base plus
the 4-byte header size; on the concrete grant `pw0` at base 0 the pointer
is 2, not 4. -/
theorem c3_counterexample :
    ¬ (PayloadW.dma_pointer pw0 0 = 0 + (PayloadHeader.header_size : Int)) := by
  decide

/-- C3 (amended): for every read or write payload grant, `dma_pointer`
returns the grant base plus `dma_payload_offset = 2` — the address of the
header's length byte, where the hardware DMA part of the frame starts —
which is 2 bytes before the body's first byte (base + header_size). -/
theorem c3_dma_pointer_offset_two (p : PayloadW) (q : PayloadR) (base : Int) :
    p.dma_pointer base = base + PayloadHeader.dma_payload_offset ∧
    q.dma_pointer base = base + PayloadHeader.dma_payload_offset ∧
    p.dma_pointer base = base + 2 ∧
    q.dma_pointer base = base + 2 ∧
    p.dma_pointer base + 2 = base + (PayloadHeader.header_size : Int) ∧
    q.dma_pointer base + 2 = base + (PayloadHeader.header_size : Int) := by
  unfold PayloadW.dma_pointer PayloadR.dma_pointer
  unfold PayloadHeader.dma_payload_offset PayloadHeader.header_size
  refine ⟨rfl, rfl, rfl, rfl, ?_, ?_⟩ <;> push_cast <;> ring

/-- C6: the header codec round-trips — decoding the encoding of any header
gives the header back, and every 4-byte input is the encoding of the header
it decodes to (both directions are total functions of the embedding). -/
theorem c6_header_codec_round_trip :
    (∀ h : PayloadHeader,
      PayloadHeader.from_bytes (PayloadHeader.to_bytes h) = h) ∧
    (∀ b : List Nat, b.length = 4 →
      PayloadHeader.to_bytes (PayloadHeader.from_bytes b) = b) := by
  constructor
  · intro h
    cases h
    rfl
  · intro b hb
    rcases b with _ | ⟨b0, _ | ⟨b1, _ | ⟨b2, _ | ⟨b3, _ | ⟨b4, t⟩⟩⟩⟩⟩ <;>
      simp at hb
    rfl

/-- C6 witness: the round trip evaluated at a concrete header and a
concrete 4-byte input. -/
theorem c6_witness :
    PayloadHeader.from_bytes (PayloadHeader.to_bytes ⟨9, 3, 17, 1⟩) =
      (⟨9, 3, 17, 1⟩ : PayloadHeader) ∧
    PayloadHeader.to_bytes (PayloadHeader.from_bytes [9, 3, 17, 1]) =
      [9, 3, 17, 1] :=
  ⟨c6_header_codec_round_trip.1 ⟨9, 3, 17, 1⟩,
   c6_header_codec_round_trip.2 [9, 3, 17, 1] (by decide)⟩

/-- C9: `new_from_app` writes the encoded header — rssi, pipe, length,
flags at indices 0..3 — into the first 4 bytes of the reservation, so
`pipe()` and `payload_len()` answer from the header before any body write
or commit. -/
theorem c9_new_from_app_writes_header (raw : List Nat) (h : PayloadHeader) :
    (PayloadW.new_from_app raw h).grant.getD PayloadHeader.rssi_idx 0 =
      h.rssi ∧
    (PayloadW.new_from_app raw h).grant.getD PayloadHeader.pipe_idx 0 =
      h.pipe ∧
    (PayloadW.new_from_app raw h).grant.getD PayloadHeader.length_idx 0 =
      h.length ∧
    (PayloadW.new_from_app raw h).grant.getD PayloadHeader.pid_no_ack_idx 0 =
      h.pid_no_ack ∧
    (PayloadW.new_from_app raw h).grant.take PayloadHeader.header_size =
      h.to_bytes ∧
    (PayloadW.new_from_app raw h).pipe = h.pipe ∧
    (PayloadW.new_from_app raw h).payload_len = h.length := by
  cases h
  exact ⟨rfl, rfl, rfl, rfl, rfl, rfl, rfl⟩

/-- C4: `commit(used)` stores `min(used, L)` into the header length byte
(where `L` is the declared length recorded in the header) and commits
exactly that many body bytes plus the 4 header bytes; `used ≤ L` commits
`used`, `used > L` clamps to `L`, and the committed frame never exceeds the
original declaration or the reservation. -/
theorem c4_commit_clamps (p : PayloadW) (used : Nat) (hw : p.wf) :
    (p.commit used).getD PayloadHeader.length_idx 0 =
      min used p.payload_len ∧
    (p.commit used).length =
      min used p.payload_len + PayloadHeader.header_size ∧
    (used ≤ p.payload_len →
      (p.commit used).getD PayloadHeader.length_idx 0 = used) ∧
    (p.payload_len < used →
      (p.commit used).getD PayloadHeader.length_idx 0 = p.payload_len) ∧
    (p.commit used).length ≤ p.payload_len + PayloadHeader.header_size ∧
    (p.commit used).length ≤ p.grant.length := by
  obtain ⟨hfit, hbyte⟩ := hw
  have hm : min used p.payload_len ≤
      p.grant.getD PayloadHeader.length_idx 0 :=
    Nat.min_le_right _ _
  have hmod : min used p.payload_len % 256 = min used p.payload_len :=
    Nat.mod_eq_of_lt (lt_of_le_of_lt hm hbyte)
  have h2 : PayloadHeader.length_idx < p.grant.length := by
    simp only [PayloadHeader.length_idx, PayloadHeader.header_size] at hfit ⊢
    omega
  have hset : (p.grant.set PayloadHeader.length_idx
      (min used p.payload_len % 256)).length = p.grant.length :=
    List.length_set ..
  have hlt : PayloadHeader.length_idx <
      min used p.payload_len + PayloadHeader.header_size := by
    simp only [PayloadHeader.length_idx, PayloadHeader.header_size]
    omega
  have hgetD : (p.commit used).getD PayloadHeader.length_idx 0 =
      min used p.payload_len := by
    rw [commit_eq, getD_take_of_lt _ _ _ hlt,
      getD_set_self p.grant PayloadHeader.length_idx _ h2, hmod]
  have hfits : min used p.payload_len + PayloadHeader.header_size ≤
      p.grant.length :=
    le_trans (Nat.add_le_add_right hm PayloadHeader.header_size) hfit
  have hlen : (p.commit used).length =
      min used p.payload_len + PayloadHeader.header_size := by
    rw [commit_eq, List.length_take, hset, Nat.min_eq_left hfits]
  refine ⟨hgetD, hlen, ?_, ?_, ?_, ?_⟩
  · intro hle
    rw [hgetD, Nat.min_eq_left hle]
  · intro hgt
    rw [hgetD, Nat.min_eq_right (Nat.le_of_lt hgt)]
  · rw [hlen]
    exact Nat.add_le_add_right (Nat.min_le_right _ _) _
  · rw [hlen]
    exact hfits

/-- C4 witness: the commit behaviour evaluated on a concrete grant of
declared length 6 with `used = 3`. -/
theorem c4_witness :
    pwEx.wf ∧
    (pwEx.commit 3).getD PayloadHeader.length_idx 0 =
      min 3 pwEx.payload_len ∧
    (pwEx.commit 3).length = min 3 pwEx.payload_len +
      PayloadHeader.header_size ∧
    (3 ≤ pwEx.payload_len →
      (pwEx.commit 3).getD PayloadHeader.length_idx 0 = 3) ∧
    (pwEx.payload_len < 3 →
      (pwEx.commit 3).getD PayloadHeader.length_idx 0 = pwEx.payload_len) ∧
    (pwEx.commit 3).length ≤ pwEx.payload_len + PayloadHeader.header_size ∧
    (pwEx.commit 3).length ≤ pwEx.grant.length :=
  ⟨by decide, c4_commit_clamps pwEx 3 (by decide)⟩

/-- C7: a header whose declared length exceeds the configured maximum is
rejected with `MaximumPacketExceeded` by `grant_packet` (and by
`wait_grant_packet`) before any reservation is attempted, leaving the
interface state unchanged, so a following request behaves as if the
rejected call never happened; a header with length at or below the maximum
passes the check. -/
theorem c7_oversize_rejected (s : EsbApp) (snd : EsbAppSender)
    (h h2 : PayloadHeader) (granted : List Nat) :
    (s.maximum_payload < h.length →
      s.grant_packet h = (.error .MaximumPacketExceeded, s)) ∧
    (s.maximum_payload < h.length →
      ((s.grant_packet h).2).grant_packet h2 = s.grant_packet h2) ∧
    (h.length ≤ s.maximum_payload →
      (s.grant_packet h).1 ≠ .error .MaximumPacketExceeded) ∧
    (snd.maximum_payload < h.length →
      snd.wait_grant_packet h granted = .error .MaximumPacketExceeded) ∧
    (h.length ≤ snd.maximum_payload →
      snd.wait_grant_packet h granted ≠ .error .MaximumPacketExceeded) := by
  have hmain : s.maximum_payload < h.length →
      s.grant_packet h = (.error .MaximumPacketExceeded, s) := by
    intro hgt
    unfold EsbApp.grant_packet
    simp [hgt]
  refine ⟨hmain, ?_, ?_, ?_, ?_⟩
  · intro hgt
    rw [hmain hgt]
  · intro hle
    unfold EsbApp.grant_packet
    have : ¬ s.maximum_payload < h.length := Nat.not_lt.2 hle
    simp only [gt_iff_lt, this, if_false]
    cases hg : s.prod_to_radio.grant
        (h.payload_len + PayloadHeader.header_size) with
    | error e => simp
    | ok v => simp
  · intro hgt
    unfold EsbAppSender.wait_grant_packet
    simp [hgt]
  · intro hle
    unfold EsbAppSender.wait_grant_packet
    have : ¬ snd.maximum_payload < h.length := Nat.not_lt.2 hle
    simp [this]

/-- C7 witness: a length-40 header against maximum 32 is rejected with the
state unchanged, an immediately following length-6 request is unaffected,
and the length-6 header passes the check. -/
theorem c7_witness :
    s7.grant_packet hdrBig = (.error .MaximumPacketExceeded, s7) ∧
    ((s7.grant_packet hdrBig).2).grant_packet hdrOk =
      s7.grant_packet hdrOk ∧
    (s7.grant_packet hdrOk).1 ≠ .error .MaximumPacketExceeded ∧
    snd7.wait_grant_packet hdrBig [] = .error .MaximumPacketExceeded ∧
    snd7.wait_grant_packet hdrOk (List.replicate 10 0) ≠
      .error .MaximumPacketExceeded :=
  ⟨(c7_oversize_rejected s7 snd7 hdrBig hdrOk []).1 (by decide),
   (c7_oversize_rejected s7 snd7 hdrBig hdrOk []).2.1 (by decide),
   (c7_oversize_rejected s7 snd7 hdrOk hdrOk []).2.2.1 (by decide),
   (c7_oversize_rejected s7 snd7 hdrBig hdrOk []).2.2.2.1 (by decide),
   (c7_oversize_rejected s7 snd7 hdrOk hdrOk
     (List.replicate 10 0)).2.2.2.2 (by decide)⟩

/-- C8: `commit_all` commits exactly the length currently recorded in the
header length byte plus the 4 header bytes, and produces the same committed
frame as `commit(used)` called with that recorded length. -/
theorem c8_commit_all_eq_commit_recorded (p : PayloadW) (hw : p.wf) :
    p.commit_all = p.commit p.payload_len ∧
    p.commit_all.length = p.payload_len + PayloadHeader.header_size := by
  obtain ⟨hfit, hbyte⟩ := hw
  constructor
  · rw [commit_eq]
    unfold PayloadW.commit_all FrameGrantW.commit
    rw [Nat.min_self]
    unfold PayloadW.payload_len
    rw [Nat.mod_eq_of_lt hbyte, set_getD_self]
  · unfold PayloadW.commit_all FrameGrantW.commit PayloadW.payload_len
    rw [List.length_take, Nat.min_eq_left hfit]

/-- C8 witness: on the concrete grant `pwEx` (recorded length 6),
`commit_all` equals `commit 6` and commits 10 bytes. -/
theorem c8_witness :
    pwEx.commit_all = pwEx.commit pwEx.payload_len ∧
    pwEx.commit_all.length = pwEx.payload_len + PayloadHeader.header_size :=
  c8_commit_all_eq_commit_recorded pwEx (by decide)

/-- C2: the claim says an outstanding write grant surfaces as
`GrantInProgress` and insufficient space as the queue-full variant.  In
`grant_packet` the match arms producing those variants are commented out
and the wildcard arm collapses every queue error to `InternalError`: the
function only ever returns Ok, `MaximumPacketExceeded` or `InternalError`,
and on the concrete busy and full states below — where the queue itself
reports `GrantInProgress` resp. `InsufficientSize` — the result is
`InternalError`, with the interface state (and so the outstanding grant)
left untouched. -/
theorem c2_grant_packet_collapses_errors :
    (∀ (s : EsbApp) (h : PayloadHeader),
      (s.grant_packet h).1 = .error .MaximumPacketExceeded ∨
      (s.grant_packet h).1 = .error .InternalError ∨
      exOk (s.grant_packet h).1 = true) ∧
    c2busy.prod_to_radio.grant
      (hdrC2.payload_len + PayloadHeader.header_size) =
      .error .GrantInProgress ∧
    (c2busy.grant_packet hdrC2).1 = .error .InternalError ∧
    (c2busy.grant_packet hdrC2).2 = c2busy ∧
    c2full.prod_to_radio.grant
      (hdrC2.payload_len + PayloadHeader.header_size) =
      .error .InsufficientSize ∧
    (c2full.grant_packet hdrC2).1 = .error .InternalError ∧
    (c2full.grant_packet hdrC2).2 = c2full := by
  refine ⟨?_, by decide, by decide, by decide, by decide, by decide,
    by decide⟩
  intro s h
  unfold EsbApp.grant_packet
  by_cases hb : s.maximum_payload < h.length
  · left
    simp [hb]
  · cases hg : s.prod_to_radio.grant
        (h.payload_len + PayloadHeader.header_size) with
    | error e =>
      right
      left
      simp [hb, hg]
    | ok v =>
      right
      right
      obtain ⟨g, ch⟩ := v
      simp [hb, hg, exOk]

/-- C5: every frame observed through `read_packet` on a channel built up
from an empty ring by reserve, commit and release steps (commits going
through `PayloadW::commit` or `PayloadW::commit_all` on well-formed write
payloads) has total size equal to the 4 header bytes plus its header
length byte; and if no commit step ever ran, `read_packet` returns none —
an uncommitted reservation is never observable. -/
theorem c5_read_packet_consistent (cap : Nat) (ops : List Op)
    (hv : ∀ op ∈ ops, op.valid) :
    (∀ (mp : Nat) (r : PayloadR),
      (EsbAppReceiver.read_packet ⟨(Channel.empty cap).runOps ops, mp⟩).1 =
        some r →
      r.grant.length = PayloadHeader.header_size + r.get_header.length) ∧
    ((∀ op ∈ ops, op.isCommit = false) → ∀ mp : Nat,
      (EsbAppReceiver.read_packet ⟨(Channel.empty cap).runOps ops, mp⟩).1 =
        none) := by
  have hinv : ((Channel.empty cap).runOps ops).inv :=
    runOps_inv ops (Channel.empty cap)
      (by intro f hf; simp [Channel.empty] at hf) hv
  constructor
  · intro mp r heq
    rw [read_packet_frames] at heq
    obtain ⟨f, hh, hr⟩ := Option.map_eq_some'.1 heq
    have hok := hinv f (head?_mem _ f hh)
    unfold frameOk at hok
    rw [← hr]
    show f.length = PayloadHeader.header_size +
      (PayloadHeader.from_bytes (f.take PayloadHeader.header_size)).length
    have hgl : (PayloadHeader.from_bytes
        (f.take PayloadHeader.header_size)).length =
        (f.take PayloadHeader.header_size).getD PayloadHeader.length_idx 0 :=
      rfl
    rw [hgl, getD_take_of_lt _ _ _ (by decide)]
    exact hok
  · intro hnc mp
    rw [read_packet_frames,
      runOps_frames_nil ops (Channel.empty cap) rfl hnc]
    rfl

/-- C5 witness: after reserving and committing one frame from an empty
ring, the frame read back is internally consistent. -/
theorem c5_witness :
    (PayloadR.new f1ex).grant.length =
      PayloadHeader.header_size + (PayloadR.new f1ex).get_header.length :=
  (c5_read_packet_consistent 64 opsEx (by decide)).1 32 (PayloadR.new f1ex)
    (by decide)

/-- C10: reading is a non-consuming peek — `msg_ready` answers exactly
whether `read_packet` would return Some and changes no channel state;
`read_packet` changes no channel state either, so reading again before
release observes the same oldest committed frame (not the next one) and
dropping the read grant leaves the frame occupied; `read_packet` observes
the oldest committed frame and `release` frees exactly that frame. -/
theorem c10_read_is_peek (r : EsbAppReceiver) :
    ((r.msg_ready).1 = ((r.read_packet).1).isSome) ∧
    ((r.msg_ready).2 = r) ∧
    ((r.read_packet).2 = r) ∧
    (∀ p : PayloadR, (r.read_packet).1 = some p →
      (((r.read_packet).2).read_packet).1 = some p) ∧
    ((r.read_packet).1 =
      (r.cons_from_radio.frames.head?).map PayloadR.new) ∧
    (({ r with cons_from_radio := r.cons_from_radio.release } :
        EsbAppReceiver).cons_from_radio.frames =
      r.cons_from_radio.frames.tail) := by
  obtain ⟨⟨cap, frames, wg⟩, mp⟩ := r
  cases frames with
  | nil =>
    refine ⟨rfl, rfl, rfl, ?_, rfl, rfl⟩
    intro p hp
    exact Option.noConfusion hp
  | cons f t =>
    refine ⟨rfl, rfl, rfl, ?_, rfl, rfl⟩
    intro p hp
    exact hp

/-- C10 witness: on a receiver holding two committed frames, a second
`read_packet` after an unreleased first read still returns the first
frame, and `msg_ready` agrees with `read_packet`. -/
theorem c10_witness :
    (((rcvEx.read_packet).2).read_packet).1 = some (PayloadR.new f1ex) ∧
    (rcvEx.msg_ready).1 = ((rcvEx.read_packet).1).isSome :=
  ⟨(c10_read_is_peek rcvEx).2.2.2.1 (PayloadR.new f1ex) (by decide),
   (c10_read_is_peek rcvEx).1⟩
